import Mathlib

/-!
Verification of the inbox-processing pipeline (InboxWatcher / InboxProcessor /
watch-inbox CLI) against its natural-language specification.

JavaScript strings are shallowly embedded as lists of characters
(`Str := List Char`); the filesystem touched by the pipeline is embedded as an
explicit state record of association lists (input files, static asset store,
rendered output store).  Every definition mirrors one function of the source;
deviations forced by the embedding (totality fuel, factored common prologue)
are recorded in the doc comments.
-/

namespace Inbox

/-- JavaScript strings are modelled as lists of characters. -/
abbrev Str := List Char

/-- Characters matched by the JavaScript regex class `\s`
(ASCII subset; the rare non-ASCII whitespace code points are not modelled). -/
def isJsSpace (c : Char) : Bool :=
  c = ' ' || c = '\t' || c = '\n' || c = '\x0d' || c = '\x0b' || c = '\x0c'

/-- `String.prototype.trim`. -/
def jsTrim (s : Str) : Str :=
  ((s.dropWhile isJsSpace).reverse.dropWhile isJsSpace).reverse

/-- `String.prototype.split` with a single-character separator:
`"".split(sep)` is `[""]`, and a trailing separator yields a trailing `""`. -/
def jsSplit (sep : Char) : Str → List Str
  | [] => [[]]
  | c :: cs =>
    match jsSplit sep cs with
    | [] => [[]]
    | hd :: tl => if c = sep then [] :: hd :: tl else (c :: hd) :: tl

/-- `content.split('\n').length`, the line count used by every handler. -/
def lineCount (s : Str) : Nat := (jsSplit '\n' s).length

/-- Splitting at every single whitespace character.  After discarding the empty
pieces this has exactly the segments of the JS `split(/\s+/)` (a run of
whitespace produces one or more empty pieces, which the source filters out). -/
def splitWsChars : Str → List Str
  | [] => [[]]
  | c :: cs =>
    match splitWsChars cs with
    | [] => [[]]
    | hd :: tl => if isJsSpace c then [] :: hd :: tl else (c :: hd) :: tl

/-- `content.split(/\s+/).filter(w => w).length` from `processText`. -/
def wordCount (s : Str) : Nat := ((splitWsChars s).filter (fun w => w ≠ [])).length

/-- First occurrence of a pattern string: `String.prototype.replace` with a
string first argument replaces only the first occurrence. -/
def replaceFirst (pat rep : Str) : Str → Str
  | [] => if pat = [] then rep else []
  | c :: cs =>
    if pat ≠ [] ∧ pat.isPrefixOf (c :: cs) then rep ++ (c :: cs).drop pat.length
    else c :: replaceFirst pat rep cs

/-- `String.prototype.toLowerCase` (ASCII). -/
def jsToLower (s : Str) : Str := s.map Char.toLower

/-- Does `pat` occur as a contiguous substring? -/
def containsSub (pat : Str) : Str → Bool
  | [] => pat = []
  | c :: cs => pat.isPrefixOf (c :: cs) || containsSub pat cs

/-- Association-list store standing for a directory of files
(path or filename ↦ file bytes). -/
abbrev Store := List (Str × Str)

/-- Overwrite-or-append write, the semantics of `fs.writeFileSync` /
`fs.copyFileSync` into our store model. -/
def setStore (k v : Str) : Store → Store
  | [] => [(k, v)]
  | (k', v') :: rest =>
    if k' = k then (k, v) :: rest else (k', v') :: setStore k v rest

/-- Lookup in a store (`fs.readFileSync` succeeds iff this is `some`). -/
def lookupStore (k : Str) : Store → Option Str
  | [] => none
  | (k', v) :: rest => if k' = k then some v else lookupStore k rest

/-! ### Node `path` functions (POSIX) -/

/-- Node `path.basename(p)`: trailing separators are ignored, then everything
after the last `/` is kept. -/
def basenameRaw (p : Str) : Str :=
  let q := (p.reverse.dropWhile (fun c => c = '/')).reverse
  (q.reverse.takeWhile (fun c => c ≠ '/')).reverse

/-- Index of the last occurrence of `c`, if any. -/
def lastIdxOf (c : Char) (s : Str) : Option Nat :=
  match s.reverse.indexOf? c with
  | none => none
  | some i => some (s.length - 1 - i)

/-- Node `path.extname(p)`: the suffix of the basename from its last dot.
A leading dot (dotfile) and the special names `.`/`..` yield no extension. -/
def extname (p : Str) : Str :=
  let b := basenameRaw p
  if b = ['.'] ∨ b = ['.', '.'] then []
  else
    match lastIdxOf '.' b with
    | none => []
    | some i => if i = 0 then [] else b.drop i

/-- Node `path.basename(p, ext)`: the basename with the suffix `ext` removed
when it is a proper suffix. -/
def basenameExt (p ext : Str) : Str :=
  let b := basenameRaw p
  if ext.isSuffixOf b ∧ ext.length < b.length then b.take (b.length - ext.length)
  else b

/-- Node `path.join(dir, name)` for a single separator-free component. -/
def pathJoin (d f : Str) : Str := d ++ '/' :: f

/-! ### InboxProcessor.getOutputPath -/

/-- Is `c` in the retained alphabet of the sanitizer regex `[a-zA-Z0-9_-]`? -/
def isSafeChar (c : Char) : Bool := c.isAlphanum || c = '_' || c = '-'

/-- `basename.replace(/[^a-zA-Z0-9_-]/g, '_')`. -/
def sanitize (s : Str) : Str := s.map (fun c => if isSafeChar c then c else '_')

/-- The extension key used by `getOutputPath`:
`path.extname(inputPath).toLowerCase().replace('.', '')`. -/
def extKey (inputPath : Str) : Str :=
  replaceFirst (".".data) [] (jsToLower (extname inputPath))

/-- The single filename component `${safeName}${suffix}.mdx` that
`InboxProcessor.getOutputPath` joins onto the output directory. -/
def outputFilename (inputPath : Str) : Str :=
  let ext := extKey inputPath
  let basename := basenameExt inputPath (extname inputPath)
  let safeName := sanitize basename
  let suffix := if ext = ("pdf").data ∨ ext = ("tex").data then '_' :: ext else []
  safeName ++ suffix ++ (".mdx").data

/-- `InboxProcessor.getOutputPath(inputPath, outputDir)`. -/
def getOutputPath (inputPath outputDir : Str) : Str :=
  pathJoin outputDir (outputFilename inputPath)

/-! ### InboxProcessor.generateFrontmatter -/

/-- A frontmatter value: every handler passes a string-valued `sidebarLabel`
and an array-valued `tags`, so these are the only two shapes the rendering
loop distinguishes (`key === "tags" && Array.isArray(value)`). -/
inductive FmValue where
  | str (s : Str)
  | tags (ts : List Str)
deriving DecidableEq

/-- The `options` object passed by every handler call site:
`{ sidebarLabel: ..., tags: [...] }`. -/
structure FmOptions where
  sidebarLabel : Str
  tags : List Str
deriving DecidableEq

/-- The entries of the JS object `{ title, sidebar_label: options.sidebarLabel
|| title, ...options }` in insertion order: the spread appends the two keys of
`options` (`sidebarLabel`, `tags`) after `title` and `sidebar_label`. -/
def fmEntries (title : Str) (o : FmOptions) : List (Str × FmValue) :=
  [ (("title").data, .str title),
    (("sidebar_label").data, .str (if o.sidebarLabel = [] then title else o.sidebarLabel)),
    (("sidebarLabel").data, .str o.sidebarLabel),
    (("tags").data, .tags o.tags) ]

/-- One line of the frontmatter body: `tags` arrays render as bracketed
comma-separated quoted items, every other value as `key: "value"`. -/
def renderFmLine : Str × FmValue → Str
  | (k, .str v) => k ++ (": \"").data ++ v ++ ("\"").data
  | (k, .tags ts) =>
      k ++ (": [").data ++
        List.intercalate ((", ").data) (ts.map (fun t => ("\"").data ++ t ++ ("\"").data)) ++
        ("]").data

/-- `InboxProcessor.generateFrontmatter(title, options)`. -/
def generateFrontmatter (title : Str) (o : FmOptions) : Str :=
  List.intercalate (("\n").data)
    ((("---").data) :: ((fmEntries title o).map renderFmLine ++ [("---").data]))

/-- The public path returned by `copyToStatic`: `/static/inbox/${filename}`. -/
def staticPathOf (filename : Str) : Str := ("/static/inbox/").data ++ filename

/-! ### Shared markup fragments of the handler templates

The JS templates repeat the same inline JSX markup; it is transcribed once
here (braces and single quotes appear as `\x7b`/`\x7d`/`\x27` escapes). -/

/-- The `style` attribute line shared by every download/view button. -/
def btnStyle (bg : Str) : Str :=
  ("    style=\x7b\x7bpadding: \x2710px 20px\x27, backgroundColor: \x27").data ++ bg ++
  ("\x27, color: \x27white\x27, borderRadius: \x276px\x27, textDecoration: \x27none\x27, fontWeight: \x27bold\x27\x7d\x7d>").data

/-- An `<a>` button as it appears in the templates. -/
def aTag (href attrs bg label : Str) : Str :=
  ("  <a href=\"").data ++ href ++ ("\" ").data ++ attrs ++ ("\n").data ++
  btnStyle bg ++ ("\n    ").data ++ label ++ ("\n  </a>").data

/-- Opening tag of the button row. -/
def flexRowOpen : Str :=
  ("<div style=\x7b\x7bdisplay: \x27flex\x27, gap: \x2712px\x27, flexWrap: \x27wrap\x27, marginBottom: \x2724px\x27\x7d\x7d>").data

/-- Opening tag of the statistics row. -/
def statsRowOpen : Str :=
  ("<div style=\x7b\x7bdisplay: \x27flex\x27, gap: \x2724px\x27, marginBottom: \x2724px\x27, flexWrap: \x27wrap\x27\x7d\x7d>").data

/-- One statistics box (value above label) of a statistics row. -/
def statBox (color value label : Str) : Str :=
  ("  <div style=\x7b\x7bpadding: \x2712px 16px\x27, backgroundColor: \x27#f3f4f6\x27, borderRadius: \x278px\x27\x7d\x7d>\n    <div style=\x7b\x7bfontSize: \x2724px\x27, fontWeight: \x27bold\x27, color: \x27").data ++
  color ++ ("\x27\x7d\x7d>").data ++ value ++
  ("</div>\n    <div style=\x7b\x7bfontSize: \x2712px\x27, color: \x27#6b7280\x27\x7d\x7d>").data ++
  label ++ ("</div>\n  </div>").data

/-- The standalone inline-block statistics box used by the MATLAB, HTML and
RST templates. -/
def inlineStatBox (color value label : Str) : Str :=
  ("<div style=\x7b\x7bpadding: \x2712px 16px\x27, backgroundColor: \x27#f3f4f6\x27, borderRadius: \x278px\x27, display: \x27inline-block\x27, marginBottom: \x2724px\x27\x7d\x7d>\n  <div style=\x7b\x7bfontSize: \x2724px\x27, fontWeight: \x27bold\x27, color: \x27").data ++
  color ++ ("\x27\x7d\x7d>").data ++ value ++
  ("</div>\n  <div style=\x7b\x7bfontSize: \x2712px\x27, color: \x27#6b7280\x27\x7d\x7d>").data ++
  label ++ ("</div>\n</div>").data

/-- Decimal rendering of a count interpolated into a template. -/
def natToStr (n : Nat) : Str := (Nat.repr n).data

/-! ### Python extraction (`InboxProcessor.processPython`) -/

/-- Is `c` in the regex class `\w`? -/
def isWordChar (c : Char) : Bool := c.isAlphanum || c = '_'

/-- Split at the first occurrence of `pat`, returning the text before it and
the text after it. -/
def splitAtFirstSub (pat : Str) : Str → Option (Str × Str)
  | [] => if pat = [] then some ([], []) else none
  | c :: cs =>
    if pat ≠ [] ∧ pat.isPrefixOf (c :: cs) then some ([], (c :: cs).drop pat.length)
    else
      match splitAtFirstSub pat cs with
      | some (pre, post) => some (c :: pre, post)
      | none => none

/-- Drop everything up to and including the first newline, if there is one. -/
def dropThroughNewline (s : Str) : Option Str :=
  match splitAtFirstSub (("\n").data) s with
  | some (_, post) => some post
  | none => none

/-- The greedy loop `(?:#[^\n]*\n)*` of the module-docstring regex: consume
leading comment lines (a `#` line without a terminating newline cannot match
the group and ends the loop). -/
def dropCommentLines : Nat → Str → Str
  | 0, s => s
  | fuel + 1, s =>
    if s.head? = some '#' then
      match dropThroughNewline s with
      | some rest => dropCommentLines fuel rest
      | none => s
    else s

/-- One iteration of `(?:from\s+__future__[^\n]*\n)*`. -/
def matchFutureLine (s : Str) : Option Str :=
  if (("from").data).isPrefixOf s then
    let r := s.drop 4
    let ws := r.takeWhile isJsSpace
    if ws = [] then none
    else
      let r2 := r.drop ws.length
      if (("__future__").data).isPrefixOf r2 then dropThroughNewline (r2.drop 10)
      else none
  else none

/-- The greedy loop over `from __future__` lines. -/
def dropFutureLines : Nat → Str → Str
  | 0, s => s
  | fuel + 1, s =>
    match matchFutureLine s with
    | some rest => dropFutureLines fuel rest
    | none => s

/-- The module-docstring regex
`^(?:#[^\n]*\n)*\s*(?:from\s+__future__[^\n]*\n)*\s*(?:"""(...)"""|\x27\x27\x27(...)\x27\x27\x27)`:
anchored at the start, greedy prefix loops (backtracking them can never
rescue a failed triple quote, so the greedy pass is exact), then a lazily
captured triple-quoted block. -/
def matchModuleDocstring (content : Str) : Option Str :=
  let s1 := dropCommentLines content.length content
  let s2 := s1.dropWhile isJsSpace
  let s3 := dropFutureLines s2.length s2
  let s4 := s3.dropWhile isJsSpace
  if (("\"\"\"").data).isPrefixOf s4 then
    (splitAtFirstSub (("\"\"\"").data) (s4.drop 3)).map Prod.fst
  else if (("\x27\x27\x27").data).isPrefixOf s4 then
    (splitAtFirstSub (("\x27\x27\x27").data) (s4.drop 3)).map Prod.fst
  else none

/-- `docstringMatch ? (...).trim() : ''` of `processPython`. -/
def pyDocstring (content : Str) : Str :=
  match matchModuleDocstring content with
  | some cap => jsTrim cap
  | none => []

/-- Is this line kept by the import filter
(`line.trim().startsWith("import ") || line.trim().startsWith("from ")`)? -/
def isImportLine (l : Str) : Bool :=
  (("import ").data).isPrefixOf (jsTrim l) || (("from ").data).isPrefixOf (jsTrim l)

/-- The `imports` string of `processPython`: matching lines joined by `\n`. -/
def pyImports (content : Str) : Str :=
  List.intercalate (("\n").data) ((jsSplit '\n' content).filter isImportLine)

/-- A match of `def\s+(\w+)\s*\([^)]*\)` at the current position, returning the
captured name and the rest of the input after the match. -/
def matchDefAt (s : Str) : Option (Str × Str) :=
  if (("def").data).isPrefixOf s then
    let r := s.drop 3
    let ws := r.takeWhile isJsSpace
    if ws = [] then none
    else
      let r2 := r.drop ws.length
      let name := r2.takeWhile isWordChar
      if name = [] then none
      else
        let r3 := (r2.drop name.length).dropWhile isJsSpace
        match r3 with
        | '(' :: r4 =>
          let args := r4.takeWhile (fun c => c ≠ ')')
          match r4.drop args.length with
          | ')' :: r5 => some (name, r5)
          | _ => none
        | _ => none
  else none

/-- A match of `class\s+(\w+)` at the current position. -/
def matchClassAt (s : Str) : Option (Str × Str) :=
  if (("class").data).isPrefixOf s then
    let r := s.drop 5
    let ws := r.takeWhile isJsSpace
    if ws = [] then none
    else
      let name := (r.drop ws.length).takeWhile isWordChar
      if name = [] then none else some (name, (r.drop ws.length).drop name.length)
  else none

/-- `matchAll` of a `^`-anchored pattern with the `m` flag: attempt the match
at every line start, continuing after each match (the patterns used here never
end at a newline, so the position after a match is never a line start). -/
def scanLineStarts (tryM : Str → Option (Str × Str)) : Nat → Bool → Str → List Str
  | 0, _, _ => []
  | _ + 1, _, [] => []
  | fuel + 1, atStart, c :: cs =>
    if atStart then
      match tryM (c :: cs) with
      | some (a, rest) => a :: scanLineStarts tryM fuel false rest
      | none => scanLineStarts tryM fuel (c = '\n') cs
    else scanLineStarts tryM fuel (c = '\n') cs

/-- `[...content.matchAll(/^def\s+(\w+)\s*\([^)]*\)/gm)].map(m => m[1])`. -/
def pyFunctions (content : Str) : List Str :=
  scanLineStarts matchDefAt (content.length + 1) true content

/-- `[...content.matchAll(/^class\s+(\w+)/gm)].map(m => m[1])`. -/
def pyClasses (content : Str) : List Str :=
  scanLineStarts matchClassAt (content.length + 1) true content

/-- The conditional `## Description` fragment of the Python template. -/
def pyDescriptionBlock (docstring : Str) : Str :=
  if docstring = [] then []
  else ("## Description\n\n").data ++ docstring ++ ("\n\n").data

/-- The conditional `## Dependencies` fragment of the Python template. -/
def pyDependenciesBlock (imports : Str) : Str :=
  if imports = [] then []
  else ("## Dependencies\n\n```python\n").data ++ imports ++ ("\n```\n\n").data

/-- The conditional `## Classes` fragment of the Python template. -/
def pyClassesBlock (classes : List Str) : Str :=
  if classes.length > 0 then
    ("## Classes\n\n").data ++
      List.intercalate (("\n").data) (classes.map (fun c => ("- `").data ++ c ++ ("`").data)) ++
      ("\n\n").data
  else []

/-- The conditional `## Functions` fragment of the Python template. -/
def pyFunctionsBlock (functions : List Str) : Str :=
  if functions.length > 0 then
    ("## Functions\n\n").data ++
      List.intercalate (("\n").data) (functions.map (fun f => ("- `").data ++ f ++ ("()`").data)) ++
      ("\n\n").data
  else []

/-- The pure rendering part of `InboxProcessor.processPython` (the file read
and the copy into the static store are modelled once in `processFile`; the
`staticPath` is the value `copyToStatic` returns for this file). -/
def pythonMdx (p content : Str) : Except Str Str :=
  let filename := basenameRaw p
  let title := replaceFirst ((".py").data) [] filename
  let staticPath := staticPathOf filename
  let docstring := pyDocstring content
  let imports := pyImports content
  let functions := pyFunctions content
  let classes := pyClasses content
  let frontmatter := generateFrontmatter (title ++ (" - Python Module").data)
    { sidebarLabel := filename, tags := [("python").data, ("module").data] }
  .ok <| frontmatter ++ ("\n\n# ").data ++ title ++ ("\n\n").data ++
    flexRowOpen ++ ("\n").data ++
    aTag staticPath (("download=\"").data ++ filename ++ ("\"").data) (("#10b981").data) (("Download .py").data) ++ ("\n").data ++
    aTag staticPath (("target=\"_blank\"").data) (("#3776ab").data) (("View Raw").data) ++ ("\n</div>\n\n").data ++
    statsRowOpen ++ ("\n").data ++
    statBox (("#3776ab").data) (natToStr (lineCount content)) (("Lines").data) ++ ("\n").data ++
    statBox (("#3776ab").data) (natToStr (pyClasses content).length) (("Classes").data) ++ ("\n").data ++
    statBox (("#3776ab").data) (natToStr (pyFunctions content).length) (("Functions").data) ++ ("\n</div>\n\n").data ++
    pyDescriptionBlock docstring ++ ("\n\n").data ++
    pyDependenciesBlock imports ++ ("\n\n").data ++
    pyClassesBlock classes ++ ("\n\n").data ++
    pyFunctionsBlock functions ++ ("\n\n").data ++
    ("## Source Code\n\n```python title=\"").data ++ filename ++ ("\" showLineNumbers\n").data ++
    content ++ ("\n```\n").data

/-! ### LaTeX cleaning (`InboxProcessor.cleanLatexForMdx`) -/

/-- `String.prototype.replace` with a global regex: scan left to right, emit
replacements, continue after each match (replaced text is not rescanned).
The fuel is the input length; every match of the patterns used here consumes
at least one character. -/
def jsReplaceScan (tryM : Str → Option (Str × Str)) : Nat → Str → Str
  | 0, s => s
  | _ + 1, [] => []
  | fuel + 1, c :: cs =>
    match tryM (c :: cs) with
    | some (rep, rest) => rep ++ jsReplaceScan tryM fuel rest
    | none => c :: jsReplaceScan tryM fuel cs

/-- A match of `\name\x7b([^\x7d]*)\x7d` at the current position (the bracketed
one-argument commands `textbf`/`textit`/`emph`/`texttt`). -/
def matchCmdArgAt (name : Str) (s : Str) : Option (Str × Str) :=
  if ('\\' :: name ++ ['\x7b']).isPrefixOf s then
    let r := s.drop (name.length + 2)
    let inner := r.takeWhile (fun c => c ≠ '\x7d')
    match r.drop inner.length with
    | '\x7d' :: rest => some (inner, rest)
    | _ => none
  else none

/-- A match of the generic one-argument command `\[a-zA-Z]+\x7b([^\x7d]*)\x7d`. -/
def matchAnyCmdArgAt (s : Str) : Option (Str × Str) :=
  match s with
  | '\\' :: r =>
    let name := r.takeWhile Char.isAlpha
    if name = [] then none
    else
      match r.drop name.length with
      | '\x7b' :: r2 =>
        let inner := r2.takeWhile (fun c => c ≠ '\x7d')
        match r2.drop inner.length with
        | '\x7d' :: rest => some (inner, rest)
        | _ => none
      | _ => none
  | _ => none

/-- A match of the line-break command `\\\\` (two backslash characters). -/
def matchDoubleBackslashAt : Str → Option (Str × Str)
  | '\\' :: '\\' :: rest => some ([], rest)
  | _ => none

/-- A match of a standalone command `\[a-zA-Z]+`. -/
def matchBareCmdAt : Str → Option (Str × Str)
  | '\\' :: r =>
    let name := r.takeWhile Char.isAlpha
    if name = [] then none else some ([], r.drop name.length)
  | _ => none

/-- One global pass replacing `\name\x7b...\x7d` by its argument. -/
def replaceCmdArg (name : Str) (s : Str) : Str :=
  jsReplaceScan (matchCmdArgAt name) (s.length + 1) s

/-- `InboxProcessor.cleanLatexForMdx`: the eight sequential replace passes. -/
def cleanLatexForMdx (text : Str) : Str :=
  let t1 := replaceCmdArg (("textbf").data) text
  let t2 := replaceCmdArg (("textit").data) t1
  let t3 := replaceCmdArg (("emph").data) t2
  let t4 := replaceCmdArg (("texttt").data) t3
  let t5 := jsReplaceScan matchAnyCmdArgAt (t4.length + 1) t4
  let t6 := jsReplaceScan matchDoubleBackslashAt (t5.length + 1) t5
  let t7 := jsReplaceScan matchBareCmdAt (t6.length + 1) t6
  let t8 := t7.filter (fun c => c != '\x7b' && c != '\x7d')
  jsTrim t8

/-! ### LaTeX extraction (`InboxProcessor.processLatex`) -/

/-- Leftmost match of a non-anchored regex: try every position. -/
def findFirstMap (tryM : Str → Option α) : Str → Option α
  | [] => none
  | c :: cs =>
    match tryM (c :: cs) with
    | some a => some a
    | none => findFirstMap tryM cs

/-- `matchAll` of a non-anchored global regex: collect non-overlapping matches
left to right. -/
def scanAll (tryM : Str → Option (Str × Str)) : Nat → Str → List Str
  | 0, _ => []
  | _ + 1, [] => []
  | fuel + 1, c :: cs =>
    match tryM (c :: cs) with
    | some (a, rest) => a :: scanAll tryM fuel rest
    | none => scanAll tryM fuel cs

/-- The capture loop of the title regex,
`((?:[^\x7b\x7d]|\x7b[^\x7b\x7d]*\x7d)*)` followed by the closing `\x7d`:
plain characters or one level of balanced braces, kept verbatim in the
capture.  Backtracking can never rescue a failed position, so the greedy
deterministic pass is exact. -/
def titleCaptureLoop : Nat → Str → Option (Str × Str)
  | 0, _ => none
  | _ + 1, [] => none
  | fuel + 1, c :: cs =>
    if c = '\x7d' then some ([], cs)
    else if c = '\x7b' then
      let inner := cs.takeWhile (fun c' => c' != '\x7b' && c' != '\x7d')
      match cs.drop inner.length with
      | '\x7d' :: rest =>
        match titleCaptureLoop fuel rest with
        | some (cap, rest') => some ('\x7b' :: inner ++ '\x7d' :: cap, rest')
        | none => none
      | _ => none
    else
      match titleCaptureLoop fuel cs with
      | some (cap, rest') => some (c :: cap, rest')
      | none => none

/-- A match of `\title\x7b((?:[^\x7b\x7d]|\x7b[^\x7b\x7d]*\x7d)*)\x7d` at the
current position. -/
def matchTitleAt (s : Str) : Option Str :=
  let pre := '\\' :: ("title").data ++ ['\x7b']
  if pre.isPrefixOf s then (titleCaptureLoop (s.length + 1) (s.drop pre.length)).map Prod.fst
  else none

/-- A match of `\author\x7b([^\x7d]+)\x7d` at the current position. -/
def matchAuthorAt (s : Str) : Option Str :=
  let pre := '\\' :: ("author").data ++ ['\x7b']
  if pre.isPrefixOf s then
    let r := s.drop pre.length
    let cap := r.takeWhile (fun c => c ≠ '\x7d')
    if cap = [] then none
    else
      match r.drop cap.length with
      | '\x7d' :: _ => some cap
      | _ => none
  else none

/-- A match of `\section\x7b([^\x7d]+)\x7d` at the current position, for the
global section scan. -/
def matchSectionAt (s : Str) : Option (Str × Str) :=
  let pre := '\\' :: ("section").data ++ ['\x7b']
  if pre.isPrefixOf s then
    let r := s.drop pre.length
    let cap := r.takeWhile (fun c => c ≠ '\x7d')
    if cap = [] then none
    else
      match r.drop cap.length with
      | '\x7d' :: rest => some (cap, rest)
      | _ => none
  else none

/-- The lazily captured abstract:
`\begin\x7babstract\x7d([\s\S]*?)\end\x7babstract\x7d` (text between the first
begin and the first end after it). -/
def latexAbstractRaw (content : Str) : Option Str :=
  match splitAtFirstSub ('\\' :: ("begin\x7babstract\x7d").data) content with
  | some (_, after) => (splitAtFirstSub ('\\' :: ("end\x7babstract\x7d").data) after).map Prod.fst
  | none => none

/-- `rawTitle` of `processLatex`: the title capture, or the filename stem. -/
def latexRawTitle (p content : Str) : Str :=
  match findFirstMap matchTitleAt content with
  | some t => t
  | none => replaceFirst ((".tex").data) [] (basenameRaw p)

/-- `docTitle = cleanLatexForMdx(rawTitle)`. -/
def latexDocTitle (p content : Str) : Str := cleanLatexForMdx (latexRawTitle p content)

/-- `author` of `processLatex` (empty when absent). -/
def latexAuthor (content : Str) : Str :=
  match findFirstMap matchAuthorAt content with
  | some a => cleanLatexForMdx a
  | none => []

/-- `abstract` of `processLatex` (empty when absent). -/
def latexAbstract (content : Str) : Str :=
  match latexAbstractRaw content with
  | some a => cleanLatexForMdx a
  | none => []

/-- `sections` of `processLatex`: every section capture, cleaned. -/
def latexSections (content : Str) : List Str :=
  (scanAll matchSectionAt (content.length + 1) content).map cleanLatexForMdx

/-- The conditional `**Author:**` fragment of the LaTeX template. -/
def latexAuthorBlock (author : Str) : Str :=
  if author = [] then [] else ("**Author:** ").data ++ author ++ ("\n\n").data

/-- The conditional `## Abstract` fragment of the LaTeX template. -/
def latexAbstractBlock (abstract : Str) : Str :=
  if abstract = [] then [] else ("## Abstract\n\n").data ++ abstract ++ ("\n\n").data

/-- The conditional numbered `## Sections` fragment of the LaTeX template. -/
def latexSectionsBlock (sections : List Str) : Str :=
  if sections.length > 0 then
    ("## Sections\n\n").data ++
      List.intercalate (("\n").data)
        (sections.enum.map (fun iv => natToStr (iv.1 + 1) ++ (". ").data ++ iv.2)) ++
      ("\n\n").data
  else []

/-- The pure rendering part of `InboxProcessor.processLatex`. -/
def latexMdx (p content : Str) : Except Str Str :=
  let filename := basenameRaw p
  let staticPath := staticPathOf filename
  let docTitle := latexDocTitle p content
  let author := latexAuthor content
  let abstract := latexAbstract content
  let sections := latexSections content
  let frontmatter := generateFrontmatter (docTitle ++ (" - LaTeX Document").data)
    { sidebarLabel := filename, tags := [("latex").data, ("document").data] }
  .ok <| frontmatter ++ ("\n\n# ").data ++ docTitle ++ ("\n\n").data ++
    flexRowOpen ++ ("\n").data ++
    aTag staticPath (("download=\"").data ++ filename ++ ("\"").data) (("#10b981").data) (("Download .tex").data) ++ ("\n").data ++
    aTag staticPath (("target=\"_blank\"").data) (("#008080").data) (("View Raw").data) ++ ("\n</div>\n\n").data ++
    statsRowOpen ++ ("\n").data ++
    statBox (("#008080").data) (natToStr (lineCount content)) (("Lines").data) ++ ("\n").data ++
    statBox (("#008080").data) (natToStr sections.length) (("Sections").data) ++ ("\n</div>\n\n").data ++
    latexAuthorBlock author ++ ("\n\n").data ++
    latexAbstractBlock abstract ++ ("\n\n").data ++
    latexSectionsBlock sections ++ ("\n\n").data ++
    ("## Source Code\n\n```latex title=\"").data ++ filename ++ ("\" showLineNumbers\n").data ++
    content ++ ("\n```\n").data

/-! ### PDF (`InboxProcessor.processPdf`) -/

/-- `Math.round(stats.size / 1024)` on a byte count (round half up). -/
def pdfSizeKB (size : Nat) : Nat := (2 * size + 1024) / 2048

/-- The file-size box of the PDF template. -/
def pdfSizeDiv (sizeKB : Str) : Str :=
  ("<div style=\x7b\x7bpadding: \x2712px 16px\x27, backgroundColor: \x27#f3f4f6\x27, borderRadius: \x278px\x27, display: \x27inline-block\x27, marginBottom: \x2724px\x27\x7d\x7d>\n  <div style=\x7b\x7bfontSize: \x2714px\x27, color: \x27#6b7280\x27\x7d\x7d>File Size: <strong>").data ++
  sizeKB ++ (" KB</strong></div>\n</div>").data

/-- The pure rendering part of `InboxProcessor.processPdf` (the `statSync`
size is the stored byte count of the file). -/
def pdfMdx (p content : Str) : Except Str Str :=
  let filename := basenameRaw p
  let title := replaceFirst ((".pdf").data) [] filename
  let staticPath := staticPathOf filename
  let sizeKB := pdfSizeKB content.length
  let frontmatter := generateFrontmatter (title ++ (" - PDF").data)
    { sidebarLabel := title ++ (" (PDF)").data, tags := [("pdf").data, ("document").data] }
  .ok <| frontmatter ++ ("\n\n# ").data ++ title ++ (" - PDF Document\n\n").data ++
    flexRowOpen ++ ("\n").data ++
    aTag staticPath (("download=\"").data ++ filename ++ ("\"").data) (("#10b981").data) (("ðŸ“¥ Download PDF").data) ++ ("\n").data ++
    aTag staticPath (("target=\"_blank\" rel=\"noopener noreferrer\"").data) (("#dc2626").data) (("ðŸ”— Open in New Tab").data) ++ ("\n</div>\n\n").data ++
    pdfSizeDiv (natToStr sizeKB) ++ ("\n\n").data ++
    ("## PDF Preview\n\n:::tip\nIf the preview doesn\x27t load, use the **Open in New Tab** button above.\n:::\n\n<iframe\n  src=\"").data ++
    staticPath ++ ("\"\n  width=\"100%\"\n  height=\"900px\"\n  style=\x7b\x7b\n    border: \x272px solid #e5e7eb\x27,\n    borderRadius: \x278px\x27,\n    boxShadow: \x270 4px 6px rgba(0, 0, 0, 0.1)\x27,\n  \x7d\x7d\n  title=\"").data ++
    title ++ (" PDF\"\n/>\n").data

/-! ### MATLAB (`InboxProcessor.processMatlab`) -/

/-- The maximal block matched by `^(%[^\n]*\n)+`: leading percent-comment
lines, each terminated by a newline. -/
def matlabHeaderBlock : Nat → Str → Str
  | 0, _ => []
  | fuel + 1, s =>
    if s.head? = some '%' then
      match splitAtFirstSub (("\n").data) s with
      | some (line, rest) => line ++ ('\n' :: matlabHeaderBlock fuel rest)
      | none => []
    else []

/-- `%\s*` stripped from the start of one line (`/^%\s*/gm`). -/
def stripPct (l : Str) : Str :=
  match l with
  | '%' :: r => r.dropWhile isJsSpace
  | _ => l

/-- `headerComments` of `processMatlab`. -/
def matlabHeader (content : Str) : Str :=
  let block := matlabHeaderBlock content.length content
  if block = [] then []
  else jsTrim (List.intercalate (("\n").data) ((jsSplit '\n' block).map stripPct))

/-- The conditional `## Description` fragment of the MATLAB template. -/
def matlabDescriptionBlock (headerComments : Str) : Str :=
  if headerComments = [] then []
  else ("## Description\n\n").data ++ headerComments ++ ("\n\n").data

/-- The pure rendering part of `InboxProcessor.processMatlab`.  The source
also extracts a `funcName` via a function-signature regex but never uses it in
the rendered output, so that dead computation is not modelled. -/
def matlabMdx (p content : Str) : Except Str Str :=
  let filename := basenameRaw p
  let title := replaceFirst ((".m").data) [] filename
  let staticPath := staticPathOf filename
  let headerComments := matlabHeader content
  let frontmatter := generateFrontmatter (title ++ (" - MATLAB").data)
    { sidebarLabel := filename, tags := [("matlab").data, ("code").data] }
  .ok <| frontmatter ++ ("\n\n# ").data ++ title ++ ("\n\n").data ++
    flexRowOpen ++ ("\n").data ++
    aTag staticPath (("download=\"").data ++ filename ++ ("\"").data) (("#10b981").data) (("Download .m").data) ++ ("\n").data ++
    aTag staticPath (("target=\"_blank\"").data) (("#0076a8").data) (("View Raw").data) ++ ("\n</div>\n\n").data ++
    inlineStatBox (("#0076a8").data) (natToStr (lineCount content)) (("Lines").data) ++ ("\n\n").data ++
    matlabDescriptionBlock headerComments ++ ("\n\n").data ++
    ("## Source Code\n\n```matlab title=\"").data ++ filename ++ ("\" showLineNumbers\n").data ++
    content ++ ("\n```\n").data

/-! ### HTML (`InboxProcessor.processHtml`) -/

/-- A match of `<title>([^<]+)<\/title>` with the `i` flag at the current
position. -/
def matchHtmlTitleAt (s : Str) : Option Str :=
  if jsToLower (s.take 7) = ("<title>").data then
    let r := s.drop 7
    let cap := r.takeWhile (fun c => c ≠ '<')
    if cap = [] then none
    else if jsToLower ((r.drop cap.length).take 8) = ("</title>").data then some cap
    else none
  else none

/-- `htmlTitle` of `processHtml` (falls back to the filename stem). -/
def htmlTitle (p content : Str) : Str :=
  match findFirstMap matchHtmlTitleAt content with
  | some t => t
  | none => replaceFirst ((".html").data) [] (basenameRaw p)

/-- The pure rendering part of `InboxProcessor.processHtml`. -/
def htmlMdx (p content : Str) : Except Str Str :=
  let filename := basenameRaw p
  let staticPath := staticPathOf filename
  let htitle := htmlTitle p content
  let frontmatter := generateFrontmatter (htitle ++ (" - HTML").data)
    { sidebarLabel := filename, tags := [("html").data, ("web").data] }
  .ok <| frontmatter ++ ("\n\n# ").data ++ htitle ++ ("\n\n").data ++
    flexRowOpen ++ ("\n").data ++
    aTag staticPath (("download=\"").data ++ filename ++ ("\"").data) (("#10b981").data) (("Download HTML").data) ++ ("\n").data ++
    aTag staticPath (("target=\"_blank\"").data) (("#e34c26").data) (("Open in Browser").data) ++ ("\n</div>\n\n").data ++
    inlineStatBox (("#e34c26").data) (natToStr (lineCount content)) (("Lines").data) ++ ("\n\n").data ++
    ("## Preview\n\n<iframe\n  src=\"").data ++ staticPath ++
    ("\"\n  width=\"100%\"\n  height=\"500px\"\n  style=\x7b\x7bborder: \x271px solid #e5e7eb\x27, borderRadius: \x278px\x27\x7d\x7d\n/>\n\n").data ++
    ("## Source Code\n\n```html title=\"").data ++ filename ++ ("\" showLineNumbers\n").data ++
    content ++ ("\n```\n").data

/-! ### Plain text (`InboxProcessor.processText`) -/

/-- The pure rendering part of `InboxProcessor.processText`. -/
def textMdx (p content : Str) : Except Str Str :=
  let filename := basenameRaw p
  let title := replaceFirst ((".txt").data) [] filename
  let staticPath := staticPathOf filename
  let frontmatter := generateFrontmatter (title ++ (" - Text File").data)
    { sidebarLabel := filename, tags := [("text").data] }
  .ok <| frontmatter ++ ("\n\n# ").data ++ title ++ ("\n\n").data ++
    flexRowOpen ++ ("\n").data ++
    aTag staticPath (("download=\"").data ++ filename ++ ("\"").data) (("#10b981").data) (("Download").data) ++ ("\n</div>\n\n").data ++
    statsRowOpen ++ ("\n").data ++
    statBox (("#6b7280").data) (natToStr (lineCount content)) (("Lines").data) ++ ("\n").data ++
    statBox (("#6b7280").data) (natToStr (wordCount content)) (("Words").data) ++ ("\n</div>\n\n").data ++
    ("## Contents\n\n```text title=\"").data ++ filename ++ ("\"\n").data ++
    content ++ ("\n```\n").data

/-! ### Markdown (`InboxProcessor.processMarkdown`) -/

/-- A match of `^#\s+(.+)$` (with the `m` flag) at a line start.  The greedy
`\s+` may also consume newlines; when nothing non-whitespace remains on the
final line the engine backtracks and lets `(.+)` capture trailing whitespace
instead. -/
def matchMdHeadingAt (s : Str) : Option Str :=
  match s with
  | '#' :: r =>
    let ws := r.takeWhile isJsSpace
    if ws = [] then none
    else
      let after := r.drop ws.length
      let cap0 := after.takeWhile (fun c => c ≠ '\n')
      if cap0 ≠ [] then some cap0
      else
        let capBT := (ws.reverse.takeWhile (fun c => c ≠ '\n')).reverse
        if capBT ≠ [] ∧ capBT.length < ws.length then some capBT else none
  | _ => none

/-- Leftmost line-anchored match (first match of an `m`-flag regex). -/
def findFirstLineStart (tryM : Str → Option α) : Nat → Bool → Str → Option α
  | 0, _, _ => none
  | _ + 1, _, [] => none
  | fuel + 1, atStart, c :: cs =>
    if atStart then
      match tryM (c :: cs) with
      | some a => some a
      | none => findFirstLineStart tryM fuel (c = '\n') cs
    else findFirstLineStart tryM fuel (c = '\n') cs

/-- `mdTitle` of `processMarkdown`: first heading capture, else filename stem. -/
def mdTitle (p content : Str) : Str :=
  match findFirstLineStart matchMdHeadingAt (content.length + 1) true content with
  | some t => t
  | none => replaceFirst ((".md").data) [] (basenameRaw p)

/-- `content.replace(/^#\s+.+\n/, '')`: without the `m` flag the anchor is the
string start, so only a heading at the very beginning is removed, together
with its terminating newline. -/
def stripLeadingHeading (content : Str) : Str :=
  match content with
  | '#' :: r =>
    let ws := r.takeWhile isJsSpace
    if ws = [] then content
    else
      let after := r.drop ws.length
      let cap0 := after.takeWhile (fun c => c ≠ '\n')
      if cap0 ≠ [] then
        match after.drop cap0.length with
        | '\n' :: rest => rest
        | _ => content
      else
        match after with
        | '\n' :: rest =>
          let capBT := (ws.reverse.takeWhile (fun c => c ≠ '\n')).reverse
          if capBT ≠ [] ∧ capBT.length < ws.length then rest else content
        | _ => content
  | _ => content

/-- Does the content have a first heading (`headingMatch` truthiness)? -/
def mdHasHeading (content : Str) : Bool :=
  (findFirstLineStart matchMdHeadingAt (content.length + 1) true content).isSome

/-- The pure rendering part of `InboxProcessor.processMarkdown`. -/
def markdownMdx (p content : Str) : Except Str Str :=
  let filename := basenameRaw p
  let staticPath := staticPathOf filename
  let title := mdTitle p content
  let frontmatter := generateFrontmatter title
    { sidebarLabel := filename, tags := [("markdown").data, ("documentation").data] }
  let processedContent := if mdHasHeading content then stripLeadingHeading content else content
  .ok <| frontmatter ++ ("\n\n# ").data ++ title ++ ("\n\n").data ++
    ("<div style=\x7b\x7bmarginBottom: \x2724px\x27\x7d\x7d>\n").data ++
    aTag staticPath (("download=\"").data ++ filename ++ ("\"").data) (("#10b981").data) (("Download Original").data) ++ ("\n</div>\n\n").data ++
    processedContent ++ ("\n").data

/-! ### reStructuredText (`InboxProcessor.processRst`) -/

/-- A match of `^(.+)\n[=]+\n` (with the `m` flag) at a line start: a
non-empty line followed by a line consisting solely of `=` characters. -/
def matchRstTitleAt (s : Str) : Option Str :=
  let cap := s.takeWhile (fun c => c ≠ '\n')
  if cap = [] then none
  else
    match s.drop cap.length with
    | '\n' :: r =>
      let eqs := r.takeWhile (fun c => c = '=')
      if eqs = [] then none
      else
        match r.drop eqs.length with
        | '\n' :: _ => some cap
        | _ => none
    | _ => none

/-- `rstTitle` of `processRst`: underlined title capture, else filename stem. -/
def rstTitle (p content : Str) : Str :=
  match findFirstLineStart matchRstTitleAt (content.length + 1) true content with
  | some t => t
  | none => replaceFirst ((".rst").data) [] (basenameRaw p)

/-- The pure rendering part of `InboxProcessor.processRst`. -/
def rstMdx (p content : Str) : Except Str Str :=
  let filename := basenameRaw p
  let staticPath := staticPathOf filename
  let rtitle := rstTitle p content
  let frontmatter := generateFrontmatter (rtitle ++ (" - RST Document").data)
    { sidebarLabel := filename, tags := [("rst").data, ("documentation").data] }
  .ok <| frontmatter ++ ("\n\n# ").data ++ rtitle ++ ("\n\n").data ++
    flexRowOpen ++ ("\n").data ++
    aTag staticPath (("download=\"").data ++ filename ++ ("\"").data) (("#10b981").data) (("Download .rst").data) ++ ("\n</div>\n\n").data ++
    inlineStatBox (("#6b7280").data) (natToStr (lineCount content)) (("Lines").data) ++ ("\n\n").data ++
    ("## Source\n\n```rst title=\"").data ++ filename ++ ("\" showLineNumbers\n").data ++
    content ++ ("\n```\n").data

/-! ### JSON (`JSON.parse`, used by `processNotebook`) -/

/-- A JSON value (numbers keep their source text). -/
inductive Json where
  | null
  | bool (b : Bool)
  | num (raw : Str)
  | str (s : Str)
  | arr (elems : List Json)
  | obj (fields : List (Str × Json))

/-- JSON insignificant whitespace. -/
def skipJsonWs (s : Str) : Str :=
  s.dropWhile (fun c => c = ' ' || c = '\t' || c = '\n' || c = '\x0d')

/-- Value of one hex digit. -/
def hexVal (c : Char) : Option Nat :=
  if '0' ≤ c ∧ c ≤ '9' then some (c.toNat - 48)
  else if 'a' ≤ c ∧ c ≤ 'f' then some (c.toNat - 87)
  else if 'A' ≤ c ∧ c ≤ 'F' then some (c.toNat - 55)
  else none

/-- Four hex digits of a `\u` escape. -/
def parseHex4 : Str → Option (Nat × Str)
  | a :: b :: c :: d :: rest =>
    match hexVal a, hexVal b, hexVal c, hexVal d with
    | some va, some vb, some vc, some vd => some (((va * 16 + vb) * 16 + vc) * 16 + vd, rest)
    | _, _, _, _ => none
  | _ => none

/-- The body of a JSON string after its opening quote, decoding escapes
(lone surrogate halves of a `\u` pair are not modelled exactly). -/
def parseJStringBody : Nat → Str → Option (Str × Str)
  | 0, _ => none
  | _ + 1, [] => none
  | fuel + 1, c :: cs =>
    if c = '"' then some ([], cs)
    else if c = '\\' then
      match cs with
      | [] => none
      | e :: cs2 =>
        let dec : Option (Str × Str) :=
          if e = '"' then some ([('"')], cs2)
          else if e = '\\' then some ([('\\')], cs2)
          else if e = '/' then some ([('/')], cs2)
          else if e = 'b' then some ([('\x08')], cs2)
          else if e = 'f' then some ([('\x0c')], cs2)
          else if e = 'n' then some ([('\n')], cs2)
          else if e = 'r' then some ([('\x0d')], cs2)
          else if e = 't' then some ([('\t')], cs2)
          else if e = 'u' then
            match parseHex4 cs2 with
            | some (n, rest) => some ([Char.ofNat n], rest)
            | none => none
          else none
        match dec with
        | some (chs, rest) =>
          match parseJStringBody fuel rest with
          | some (out, rem) => some (chs ++ out, rem)
          | none => none
        | none => none
    else if c.toNat < 32 then none
    else
      match parseJStringBody fuel cs with
      | some (out, rem) => some (c :: out, rem)
      | none => none

/-- A digit run. -/
def takeDigits (s : Str) : Str × Str :=
  (s.takeWhile Char.isDigit, s.dropWhile Char.isDigit)

/-- The JSON number grammar, returning the raw consumed text. -/
def parseJNumber (s : Str) : Option (Str × Str) :=
  let (neg, r1) : Str × Str := if s.head? = some '-' then (['-'], s.drop 1) else ([], s)
  match r1 with
  | [] => none
  | c :: _ =>
    if ¬ c.isDigit then none
    else
      let (intPart, r2) : Str × Str :=
        if c = '0' then ([('0')], r1.drop 1) else takeDigits r1
      let (fracPart, r3) : Str × Str :=
        match r2 with
        | '.' :: r => let (ds, r') := takeDigits r; if ds = [] then ([], r2) else ('.' :: ds, r')
        | _ => ([], r2)
      let fracOk : Bool := r2.head? ≠ some '.' || fracPart ≠ []
      let (expPart, r4) : Str × Str :=
        match r3 with
        | e :: r =>
          if e = 'e' ∨ e = 'E' then
            let (sgn, r') : Str × Str :=
              match r with
              | '+' :: rr => ([('+')], rr)
              | '-' :: rr => ([('-')], rr)
              | _ => ([], r)
            let (ds, r'') := takeDigits r'
            if ds = [] then ([], r3) else (e :: sgn ++ ds, r'')
          else ([], r3)
        | _ => ([], r3)
      let expOk : Bool := (r3.head? ≠ some 'e' ∧ r3.head? ≠ some 'E') || expPart ≠ []
      if fracOk && expOk then some (neg ++ intPart ++ fracPart ++ expPart, r4) else none

mutual

/-- One JSON value at the current position (no leading whitespace). -/
def parseJValue : Nat → Str → Option (Json × Str)
  | 0, _ => none
  | fuel + 1, s =>
    match s with
    | '\x7b' :: rest =>
      (match skipJsonWs rest with
       | '\x7d' :: r2 => some (.obj [], r2)
       | r2 => (parseJMembers fuel r2).map (fun m => (.obj m.1, m.2)))
    | '[' :: rest =>
      (match skipJsonWs rest with
       | ']' :: r2 => some (.arr [], r2)
       | r2 => (parseJElems fuel r2).map (fun e => (.arr e.1, e.2)))
    | '"' :: rest => (parseJStringBody (rest.length + 1) rest).map (fun t => (.str t.1, t.2))
    | 't' :: rest => if (("rue").data).isPrefixOf rest then some (.bool true, rest.drop 3) else none
    | 'f' :: rest => if (("alse").data).isPrefixOf rest then some (.bool false, rest.drop 4) else none
    | 'n' :: rest => if (("ull").data).isPrefixOf rest then some (.null, rest.drop 3) else none
    | _ => (parseJNumber s).map (fun t => (.num t.1, t.2))

/-- The non-empty element list of a JSON array. -/
def parseJElems : Nat → Str → Option (List Json × Str)
  | 0, _ => none
  | fuel + 1, s =>
    match parseJValue fuel s with
    | none => none
    | some (v, r) =>
      match skipJsonWs r with
      | ',' :: r2 =>
        (match parseJElems fuel (skipJsonWs r2) with
         | some (vs, r3) => some (v :: vs, r3)
         | none => none)
      | ']' :: r2 => some ([v], r2)
      | _ => none

/-- The non-empty member list of a JSON object. -/
def parseJMembers : Nat → Str → Option (List (Str × Json) × Str)
  | 0, _ => none
  | fuel + 1, s =>
    match s with
    | '"' :: rest =>
      (match parseJStringBody (rest.length + 1) rest with
       | none => none
       | some (k, r) =>
         match skipJsonWs r with
         | ':' :: r2 =>
           (match parseJValue fuel (skipJsonWs r2) with
            | none => none
            | some (v, r3) =>
              match skipJsonWs r3 with
              | ',' :: r4 =>
                (match parseJMembers fuel (skipJsonWs r4) with
                 | some (ms, r5) => some ((k, v) :: ms, r5)
                 | none => none)
              | '\x7d' :: r4 => some ([(k, v)], r4)
              | _ => none)
         | _ => none)
    | _ => none

end

/-- `JSON.parse`: a single value with surrounding whitespace and nothing
after it; `none` models the thrown `SyntaxError`. -/
def parseJson (s : Str) : Option Json :=
  match parseJValue (2 * s.length + 8) (skipJsonWs s) with
  | some (v, rest) => if skipJsonWs rest = [] then some v else none
  | none => none

/-! ### Jupyter notebooks (`InboxProcessor.processNotebook`) -/

/-- Lookup of an object property: `JSON.parse` keeps the last duplicate key,
so the last binding wins. -/
def jLookup (k : Str) (fields : List (Str × Json)) : Option Json :=
  match fields with
  | [] => none
  | (k', v) :: rest =>
    match jLookup k rest with
    | some v' => some v'
    | none => if k' = k then some v else none

/-- Is the raw text of a JSON number the number zero? -/
def numIsZero (raw : Str) : Bool :=
  let mantissa := (raw.dropWhile (fun c => c = '-')).takeWhile (fun c => c.isDigit || c = '.')
  mantissa.all (fun c => c = '0' || c = '.')

/-- JavaScript truthiness of a parsed JSON value. -/
def jsTruthy : Json → Bool
  | .null => false
  | .bool b => b
  | .num raw => !(numIsZero raw)
  | .str s => !(s.isEmpty)
  | .arr _ => true
  | .obj _ => true

/-- JavaScript string coercion of a parsed JSON value, as used by template
interpolation (number text is kept raw rather than canonicalized, and
array/object coercions are not exercised by any claim). -/
def jsToString : Json → Str
  | .null => ("null").data
  | .bool true => ("true").data
  | .bool false => ("false").data
  | .num raw => raw
  | .str s => s
  | .arr _ => []
  | .obj _ => ("[object Object]").data

/-- `notebook.cells` as the handler consumes it: property access on `null`
throws, a truthy non-array value makes the later `.filter` call throw, a falsy
or absent value degrades every count to zero, and an array is used as is. -/
def jsonCells (nb : Json) : Except Str (Option (List Json)) :=
  match nb with
  | .null => .error (("TypeError").data)
  | .obj fields =>
    match jLookup (("cells").data) fields with
    | some (.arr xs) => .ok (some xs)
    | some v => if jsTruthy v then .error (("TypeError").data) else .ok none
    | none => .ok none
  | _ => .ok none

/-- `cell.cell_type` as a string (the strict comparison
`cell.cell_type === "..."` is false for every non-string value). -/
def cellType (cell : Json) : Except Str (Option Str) :=
  match cell with
  | .null => .error (("TypeError").data)
  | .obj fields =>
    .ok (match jLookup (("cell_type").data) fields with
         | some (.str s) => some s
         | _ => none)
  | _ => .ok none

/-- One element of `cell.source.join('')` (`null` joins as the empty
string). -/
def jsJoinElem : Json → Str
  | .null => []
  | v => jsToString v

/-- `Array.isArray(cell.source) ? cell.source.join('') : cell.source`
interpolated into the template (`undefined` interpolates as the text
`undefined`). -/
def cellSourceStr (cell : Json) : Except Str Str :=
  match cell with
  | .null => .error (("TypeError").data)
  | .obj fields =>
    .ok (match jLookup (("source").data) fields with
         | some (.arr xs) => xs.foldr (fun j acc => jsJoinElem j ++ acc) []
         | some v => jsToString v
         | none => ("undefined").data)
  | _ => .ok (("undefined").data)

/-- `notebook.cells.filter(c => c.cell_type === t).length`. -/
def countCellsOfType (t : Str) (cells : List Json) : Except Str Nat :=
  match cells with
  | [] => .ok 0
  | c :: rest =>
    match cellType c with
    | .error e => .error e
    | .ok ty =>
      match countCellsOfType t rest with
      | .error e => .error e
      | .ok n => .ok (if ty = some t then n + 1 else n)

/-- The `forEach` loop building `cellsContent`. -/
def notebookCellsContent (cells : List Json) : Except Str Str :=
  match cells with
  | [] => .ok []
  | c :: rest =>
    match cellSourceStr c with
    | .error e => .error e
    | .ok source =>
      match cellType c with
      | .error e => .error e
      | .ok ty =>
        let frag : Str :=
          if ty = some (("markdown").data) then ('\n' :: source) ++ [('\n')]
          else if ty = some (("code").data) then
            ("\n```python\n").data ++ source ++ ("\n```\n").data
          else []
        match notebookCellsContent rest with
        | .error e => .error e
        | .ok tail => .ok (frag ++ tail)

/-- The pure part of `InboxProcessor.processNotebook` after the file read and
the static copy (the copy happens in the source *before* `JSON.parse`, which
is modelled by `processFile` performing the copy before invoking this
renderer). -/
def notebookMdx (p content : Str) : Except Str Str :=
  let filename := basenameRaw p
  let title := replaceFirst ((".ipynb").data) [] filename
  let staticPath := staticPathOf filename
  match parseJson content with
  | none => .error (("Invalid notebook JSON").data)
  | some nb =>
    match jsonCells nb with
    | .error e => .error e
    | .ok cellsOpt =>
      let cells : List Json := match cellsOpt with | some xs => xs | none => []
      let cellCount : Nat := match cellsOpt with | some xs => xs.length | none => 0
      match countCellsOfType (("code").data) cells with
      | .error e => .error e
      | .ok codeCells =>
        match countCellsOfType (("markdown").data) cells with
        | .error e => .error e
        | .ok markdownCells =>
          match notebookCellsContent cells with
          | .error e => .error e
          | .ok cellsContent =>
            let frontmatter := generateFrontmatter (title ++ (" - Jupyter Notebook").data)
              { sidebarLabel := filename,
                tags := [("jupyter").data, ("notebook").data, ("python").data] }
            .ok <| frontmatter ++ ("\n\n# ").data ++ title ++ ("\n\n").data ++
              flexRowOpen ++ ("\n").data ++
              aTag staticPath (("download=\"").data ++ filename ++ ("\"").data) (("#10b981").data) (("Download Notebook").data) ++ ("\n</div>\n\n").data ++
              statsRowOpen ++ ("\n").data ++
              statBox (("#f37626").data) (natToStr cellCount) (("Total Cells").data) ++ ("\n").data ++
              statBox (("#f37626").data) (natToStr codeCells) (("Code Cells").data) ++ ("\n").data ++
              statBox (("#f37626").data) (natToStr markdownCells) (("Markdown Cells").data) ++ ("\n</div>\n\n").data ++
              ("## Notebook Contents\n\n").data ++ cellsContent ++ ("\n").data

/-! ### The processing pipeline (`InboxProcessor.processFile`) -/

/-- The filesystem as the pipeline sees it: the inbox input files (read
only), the static asset store keyed by original filename, and the rendered
output store keyed by full output path. -/
structure SysState where
  inputs : Store
  statics : Store
  outputs : Store
deriving DecidableEq

/-- The handler registry `InboxProcessor.handlers`, one renderer per
extension key.  Each JS handler begins by reading the input file and copying
it into the static store; that common prologue is modelled once in
`processFile`, and the registry maps to the pure rendering parts. -/
def handlers : List (Str × (Str → Str → Except Str Str)) :=
  [ ((".py").data, pythonMdx),
    ((".tex").data, latexMdx),
    ((".pdf").data, pdfMdx),
    ((".m").data, matlabMdx),
    ((".ipynb").data, notebookMdx),
    ((".html").data, htmlMdx),
    ((".txt").data, textMdx),
    ((".md").data, markdownMdx),
    ((".rst").data, rstMdx) ]

/-- Property lookup in the handler registry. -/
def lookupHandler (ext : Str) :
    List (Str × (Str → Str → Except Str Str)) → Option (Str → Str → Except Str Str)
  | [] => none
  | (k, h) :: rest => if k = ext then some h else lookupHandler ext rest

/-- `InboxProcessor.processFile(filePath, outputDir)`: dispatch on the
lower-cased extension, read, copy the original into the static store, render,
and write the rendered document at the resolved output path.  The returned
value is the output path (or the thrown error). -/
def processFile (filePath outputDir : Str) (st : SysState) : Except Str Str × SysState :=
  let ext := jsToLower (extname filePath)
  match lookupHandler ext handlers with
  | none => (.error ((("No handler for file type: ").data) ++ ext), st)
  | some render =>
    match lookupStore filePath st.inputs with
    | none => (.error ((("ENOENT: no such file ").data) ++ filePath), st)
    | some content =>
      let filename := basenameRaw filePath
      let st' := { st with statics := setStore filename content st.statics }
      match render filePath content with
      | .error e => (.error e, st')
      | .ok mdx =>
        let outPath := getOutputPath filePath outputDir
        (.ok outPath, { st' with outputs := setStore outPath mdx st'.outputs })

/-! ### The watcher boundary (`InboxWatcher`) and batch traversal -/

/-- `InboxWatcher.supportedExtensions`. -/
def supportedExtensions : List Str :=
  [ (".pdf").data, (".tex").data, (".py").data, (".m").data, (".ipynb").data,
    (".html").data, (".txt").data, (".md").data, (".rst").data ]

/-- `InboxWatcher.isSupported(filePath)`. -/
def isSupported (filePath : Str) : Bool :=
  decide (jsToLower (extname filePath) ∈ supportedExtensions)

/-- A directory tree as `readdirSync(dir, \x7b withFileTypes: true \x7d)`
exposes it: named files and named subdirectories in listing order. -/
inductive FsEntry where
  | file (name : Str)
  | dir (name : Str) (entries : List FsEntry)

/-- The `processDir` recursion of `watch-inbox.js --process`: walk entries in
order, recurse into subdirectories, attempt every file whose extension has a
handler, catch per-file failures, and count successes. -/
def processDir (outputDir : Str) (d : Str) : List FsEntry → SysState → Nat × SysState
  | [], st => (0, st)
  | .dir name sub :: rest, st =>
    let r1 := processDir outputDir (pathJoin d name) sub st
    let r2 := processDir outputDir d rest r1.2
    (r1.1 + r2.1, r2.2)
  | .file name :: rest, st =>
    if (lookupHandler (jsToLower (extname name)) handlers).isSome then
      match processFile (pathJoin d name) outputDir st with
      | (.ok _, st') =>
        let r := processDir outputDir d rest st'
        (r.1 + 1, r.2)
      | (.error _, st') => processDir outputDir d rest st'
    else processDir outputDir d rest st

/-- The full paths of the supported files of a tree, in traversal order:
exactly the files `processDir` attempts. -/
def supportedFilePaths (d : Str) : List FsEntry → List Str
  | [] => []
  | .dir name sub :: rest =>
    supportedFilePaths (pathJoin d name) sub ++ supportedFilePaths d rest
  | .file name :: rest =>
    if (lookupHandler (jsToLower (extname name)) handlers).isSome then
      pathJoin d name :: supportedFilePaths d rest
    else supportedFilePaths d rest

/-- One batch attempt: process a file, count it on success, keep the state
either way. -/
def batchStep (outputDir : Str) (acc : Nat × SysState) (p : Str) : Nat × SysState :=
  match processFile p outputDir acc.2 with
  | (.ok _, st') => (acc.1 + 1, st')
  | (.error _, st') => (acc.1, st')

/-- Did this processing attempt succeed? -/
def isOkE : Except Str Str → Bool
  | .ok _ => true
  | .error _ => false

/-! ### Concrete inputs used by the scenario claims -/

/-- A 40-line Python file (39 newlines): a leading module docstring, two
top-level import lines, one top-level class, two top-level functions, and
padding comment lines. -/
def pyExample : Str :=
  ("\"\"\"Example module docstring.\"\"\"\n\nimport os\nfrom sys import path\n\n\nclass Widget:\n    pass\n\n\ndef alpha(x):\n    return x\n\n\ndef beta(y):\n    return y\n" ++
   "# pad\n# pad\n# pad\n# pad\n# pad\n# pad\n# pad\n# pad\n# pad\n# pad\n# pad\n# pad\n# pad\n# pad\n# pad\n# pad\n# pad\n# pad\n# pad\n# pad\n# pad\n# pad\n# pad\n# pad").data

/-- A state with one malformed `.ipynb` inbox file and a pre-existing static
asset under the same notebook filename. -/
def stNotebook : SysState :=
  { inputs := [((("/inbox/nb.ipynb").data), (("\x7b").data))],
    statics := [((("nb.ipynb").data), (("old").data))],
    outputs := [] }

/-! ## Helper lemmas -/

theorem sanitize_chars (s : Str) : ∀ c ∈ sanitize s, isSafeChar c = true := by
  intro c hc
  simp only [sanitize, List.mem_map] at hc
  obtain ⟨a, -, rfl⟩ := hc
  by_cases h : isSafeChar a = true
  · simp [h]
  · simp only [h, Bool.false_eq_true, if_false]
    decide

theorem outputFilename_chars (p : Str) :
    ∀ c ∈ outputFilename p, isSafeChar c = true ∨ c = '.' := by
  intro c hc
  simp only [outputFilename, List.mem_append] at hc
  rcases hc with (hc | hc) | hc
  · exact Or.inl (sanitize_chars _ c hc)
  · by_cases hcond : extKey p = ("pdf").data ∨ extKey p = ("tex").data
    · rw [if_pos hcond] at hc
      rcases List.mem_cons.mp hc with rfl | hc
      · exact Or.inl (by decide)
      · rcases hcond with h | h <;> rw [h] at hc <;> fin_cases hc <;> exact Or.inl (by decide)
    · rw [if_neg hcond] at hc
      simp at hc
  · fin_cases hc
    · exact Or.inr rfl
    · exact Or.inl (by decide)
    · exact Or.inl (by decide)
    · exact Or.inl (by decide)

theorem outputFilename_length (p : Str) : 4 ≤ (outputFilename p).length := by
  have h : outputFilename p =
      sanitize (basenameExt p (extname p)) ++
        (if extKey p = ("pdf").data ∨ extKey p = ("tex").data then '_' :: extKey p else []) ++
        (".mdx").data := rfl
  rw [h, List.length_append, List.length_append]
  have h4 : ((".mdx").data).length = 4 := rfl
  omega

/-! ## Claim theorems -/

/-- Claim C2: the output path resolver is a pure function returning the
output directory joined with the single filename component
`safeName ++ suffix ++ ".mdx"`, where `safeName` is the sanitized basename
(every character outside letters, digits, underscore and hyphen replaced by
an underscore); the component carries only sanitizer-alphabet characters and
dots, contains no separator and is neither `.` nor `..`, so the resolved
path never escapes the configured output root, whatever characters the
original basename contains. -/
theorem getOutputPath_confined (p d : Str) :
    getOutputPath p d = d ++ '/' :: outputFilename p ∧
    outputFilename p =
      sanitize (basenameExt p (extname p)) ++
        (if extKey p = ("pdf").data ∨ extKey p = ("tex").data then '_' :: extKey p else []) ++
        (".mdx").data ∧
    (∀ c ∈ sanitize (basenameExt p (extname p)), isSafeChar c = true) ∧
    (∀ c ∈ outputFilename p, isSafeChar c = true ∨ c = '.') ∧
    '/' ∉ outputFilename p ∧
    4 ≤ (outputFilename p).length ∧
    outputFilename p ≠ (".").data ∧ outputFilename p ≠ ("..").data := by
  refine ⟨rfl, rfl, sanitize_chars _, outputFilename_chars p, ?_, outputFilename_length p, ?_, ?_⟩
  · intro h
    rcases outputFilename_chars p '/' h with h' | h'
    · exact absurd h' (by decide)
    · exact absurd h' (by decide)
  · intro h
    have := outputFilename_length p
    rw [h] at this
    simp at this
  · intro h
    have := outputFilename_length p
    rw [h] at this
    simp at this

/-- Claim C7 (counterexample): two distinct supported types with a common
basename do not always resolve to distinct outputs — a `.py` file and a
`.txt` file named `foo` both resolve to `foo.mdx`. -/
theorem getOutputPath_py_txt_collide :
    getOutputPath (("/inbox/foo.py").data) (("/docs").data) =
      getOutputPath (("/inbox/foo.txt").data) (("/docs").data) ∧
    (("/inbox/foo.py").data) ≠ (("/inbox/foo.txt").data) := by
  constructor
  · rfl
  · decide

theorem pathJoin_inj_right (d a b : Str) (h : pathJoin d a = pathJoin d b) : a = b := by
  unfold pathJoin at h
  exact List.cons.injEq .. ▸ (List.append_cancel_left h) |>.2

/-- Claim C7 (amended): only `.pdf` and `.tex` receive a type suffix.  For a
common sanitized basename, a `.pdf` input, a `.tex` input and an input of any
other type resolve to pairwise distinct outputs, while two distinct types
outside `pdf`/`tex` resolve to the same output path. -/
theorem getOutputPath_type_separation (p₁ p₂ d : Str)
    (hsame : sanitize (basenameExt p₁ (extname p₁)) = sanitize (basenameExt p₂ (extname p₂))) :
    (extKey p₁ = ("pdf").data → extKey p₂ = ("tex").data →
      getOutputPath p₁ d ≠ getOutputPath p₂ d) ∧
    (extKey p₁ = ("pdf").data → ¬(extKey p₂ = ("pdf").data ∨ extKey p₂ = ("tex").data) →
      getOutputPath p₁ d ≠ getOutputPath p₂ d) ∧
    (extKey p₁ = ("tex").data → ¬(extKey p₂ = ("pdf").data ∨ extKey p₂ = ("tex").data) →
      getOutputPath p₁ d ≠ getOutputPath p₂ d) ∧
    (¬(extKey p₁ = ("pdf").data ∨ extKey p₁ = ("tex").data) →
     ¬(extKey p₂ = ("pdf").data ∨ extKey p₂ = ("tex").data) →
      getOutputPath p₁ d = getOutputPath p₂ d) := by
  have hfn : ∀ p : Str, outputFilename p =
      sanitize (basenameExt p (extname p)) ++
        (if extKey p = ("pdf").data ∨ extKey p = ("tex").data then '_' :: extKey p else []) ++
        (".mdx").data := fun _ => rfl
  refine ⟨?_, ?_, ?_, ?_⟩
  · intro h1 h2 heq
    have hf := pathJoin_inj_right _ _ _ heq
    rw [hfn p₁, hfn p₂, hsame, if_pos (Or.inl h1), if_pos (Or.inr h2), h1, h2,
      List.append_assoc, List.append_assoc] at hf
    have := List.append_cancel_left hf
    simp at this
  · intro h1 h2 heq
    have hf := pathJoin_inj_right _ _ _ heq
    rw [hfn p₁, hfn p₂, hsame, if_pos (Or.inl h1), if_neg h2, h1,
      List.append_assoc, List.append_assoc] at hf
    have := List.append_cancel_left hf
    simp at this
  · intro h1 h2 heq
    have hf := pathJoin_inj_right _ _ _ heq
    rw [hfn p₁, hfn p₂, hsame, if_pos (Or.inr h1), if_neg h2, h1,
      List.append_assoc, List.append_assoc] at hf
    have := List.append_cancel_left hf
    simp at this
  · intro h1 h2
    show pathJoin d (outputFilename p₁) = pathJoin d (outputFilename p₂)
    rw [hfn p₁, hfn p₂, hsame, if_neg h1, if_neg h2]

/-- Witness for C7: `foo.pdf` and `foo.tex` resolve to distinct outputs. -/
theorem getOutputPath_type_separation_witness :
    getOutputPath (("/inbox/foo.pdf").data) (("/docs").data) ≠
      getOutputPath (("/inbox/foo.tex").data) (("/docs").data) :=
  (getOutputPath_type_separation (("/inbox/foo.pdf").data) (("/inbox/foo.tex").data)
    (("/docs").data) (by decide)).1 (by decide) (by decide)

theorem lookupHandler_isSome (e : Str) (l : List (Str × (Str → Str → Except Str Str))) :
    (lookupHandler e l).isSome = true ↔ e ∈ l.map Prod.fst := by
  induction l with
  | nil => simp [lookupHandler]
  | cons kv rest ih =>
    by_cases h : kv.1 = e
    · simp [lookupHandler, h]
    · have h' : ¬ e = kv.1 := fun hh => h hh.symm
      simp [lookupHandler, h, ih, h']

/-- Claim C8: the watcher extension filter and the processor handler registry
agree — an extension passes `isSupported` exactly when the registry has a
handler for it. -/
theorem supported_extensions_match_handlers :
    (∀ e : Str, e ∈ supportedExtensions ↔ (lookupHandler e handlers).isSome = true) ∧
    (∀ p : Str, isSupported p = true ↔
      (lookupHandler (jsToLower (extname p)) handlers).isSome = true) := by
  have key : ∀ e : Str, e ∈ supportedExtensions ↔ (lookupHandler e handlers).isSome = true := by
    intro e
    rw [lookupHandler_isSome]
    constructor <;> intro h
    · simp only [supportedExtensions, List.mem_cons, List.mem_singleton] at h
      simp only [handlers, List.map, List.mem_cons]
      tauto
    · simp only [handlers, List.map, List.mem_cons] at h
      simp only [supportedExtensions, List.mem_cons, List.mem_singleton]
      tauto
  refine ⟨key, fun p => ?_⟩
  rw [isSupported, decide_eq_true_eq]
  exact key _

/-- Claim C1 (counterexample): an empty input does not give all-zero stats
with no failure — the line count of the empty string is 1 (JS
`''.split('\n')` has one element), and the notebook handler fails outright
because the empty string is not valid JSON. -/
theorem empty_input_counterexample :
    lineCount [] ≠ 0 ∧
    isOkE (notebookMdx (("/inbox/empty.ipynb").data) []) = false := by
  constructor
  · decide
  · rfl

/-- Claim C1 (amended): on an empty input every handler except the notebook
handler succeeds; the word, class, function, section and description
extractions are all empty/zero and the PDF size stat is 0 KB, but the line
count stat is 1, and the notebook handler fails with the invalid-JSON parse
error. -/
theorem empty_input_behavior :
    lineCount [] = 1 ∧
    wordCount [] = 0 ∧
    pyClasses [] = [] ∧
    pyFunctions [] = [] ∧
    pyDocstring [] = [] ∧
    pyImports [] = [] ∧
    latexSections [] = [] ∧
    latexAuthor [] = [] ∧
    latexAbstract [] = [] ∧
    matlabHeader [] = [] ∧
    pdfSizeKB 0 = 0 ∧
    isOkE (pythonMdx (("/inbox/e.py").data) []) = true ∧
    isOkE (latexMdx (("/inbox/e.tex").data) []) = true ∧
    isOkE (pdfMdx (("/inbox/e.pdf").data) []) = true ∧
    isOkE (matlabMdx (("/inbox/e.m").data) []) = true ∧
    isOkE (htmlMdx (("/inbox/e.html").data) []) = true ∧
    isOkE (textMdx (("/inbox/e.txt").data) []) = true ∧
    isOkE (markdownMdx (("/inbox/e.md").data) []) = true ∧
    isOkE (rstMdx (("/inbox/e.rst").data) []) = true ∧
    notebookMdx (("/inbox/e.ipynb").data) [] = .error (("Invalid notebook JSON").data) :=
  ⟨rfl, rfl, rfl, rfl, rfl, rfl, rfl, rfl, rfl, rfl, rfl, rfl, rfl, rfl, rfl, rfl, rfl,
   rfl, rfl, rfl⟩

set_option maxRecDepth 8000 in
/-- Claim C5: on the 40-line example Python file (leading documentation
block, two import lines, one class, two functions), the Python handler
extracts stats Lines=40, Classes=1, Functions=2, a description section
containing the documentation block, a dependency block listing exactly the
two import lines, and class/function listings naming `Widget`, `alpha` and
`beta` in declaration order. -/
theorem python_scenario :
    lineCount pyExample = 40 ∧
    pyClasses pyExample = [("Widget").data] ∧
    pyFunctions pyExample = [("alpha").data, ("beta").data] ∧
    pyDocstring pyExample = ("Example module docstring.").data ∧
    pyImports pyExample = ("import os\nfrom sys import path").data ∧
    pyDescriptionBlock (pyDocstring pyExample) =
      ("## Description\n\nExample module docstring.\n\n").data ∧
    pyDependenciesBlock (pyImports pyExample) =
      ("## Dependencies\n\n```python\nimport os\nfrom sys import path\n```\n\n").data ∧
    pyClassesBlock (pyClasses pyExample) = ("## Classes\n\n- `Widget`\n\n").data ∧
    pyFunctionsBlock (pyFunctions pyExample) =
      ("## Functions\n\n- `alpha()`\n- `beta()`\n\n").data :=
  ⟨rfl, rfl, rfl, rfl, rfl, rfl, rfl, rfl, rfl⟩

/-- Claim C6 (counterexample): the strip-markup transform does not remove
commands whose name is not alphabetic — the escaped brace in the section
heading `\section\x7b\,\x7babc\x7d\x7d` survives as the backslash sequence
`\abc` in the extracted section list, so markup syntax can leak into the
extracted fields. -/
theorem cleanLatex_counterexample :
    latexSections (("\\section\x7b\\\x7babc\x7d\x7d").data) = [(("\\abc").data)] ∧
    '\\' ∈ cleanLatexForMdx (("\\\x7babc").data) := by
  constructor
  · rfl
  · decide

/-- Claim C6 (amended): the transform collapses the four named wrappers and
any other alphabetic one-argument command to its argument (nested commands
included), deletes `\\` line breaks and standalone alphabetic commands,
strips leftover braces, and is the transform applied to the extracted LaTeX
title, author, abstract and section headings; commands with non-alphabetic
names (such as `\&` or escaped braces) are not removed and can remain in
those fields. -/
theorem cleanLatex_behavior :
    cleanLatexForMdx (("\\textbf\x7bX\x7d").data) = (("X").data) ∧
    cleanLatexForMdx (("\\textit\x7bX\x7d").data) = (("X").data) ∧
    cleanLatexForMdx (("\\emph\x7bX\x7d").data) = (("X").data) ∧
    cleanLatexForMdx (("\\texttt\x7bX\x7d").data) = (("X").data) ∧
    cleanLatexForMdx (("\\foo\x7bX\x7d").data) = (("X").data) ∧
    cleanLatexForMdx (("\\textbf\x7b\\emph\x7bX\x7d\x7d").data) = (("X").data) ∧
    cleanLatexForMdx (("\\foo\x7b\\bar\x7bX\x7d Y\x7d").data) = (("X Y").data) ∧
    cleanLatexForMdx (("a\\\\b").data) = (("ab").data) ∧
    cleanLatexForMdx (("\\alpha z").data) = (("z").data) ∧
    cleanLatexForMdx (("\x7bx\x7d").data) = (("x").data) ∧
    (∀ p content, latexDocTitle p content = cleanLatexForMdx (latexRawTitle p content)) ∧
    (∀ content, latexAuthor content =
      (match findFirstMap matchAuthorAt content with
       | some a => cleanLatexForMdx a
       | none => [])) ∧
    (∀ content, latexAbstract content =
      (match latexAbstractRaw content with
       | some a => cleanLatexForMdx a
       | none => [])) ∧
    (∀ content, latexSections content =
      (scanAll matchSectionAt (content.length + 1) content).map cleanLatexForMdx) ∧
    cleanLatexForMdx (("\\&").data) = (("\\&").data) :=
  ⟨rfl, rfl, rfl, rfl, rfl, rfl, rfl, rfl, rfl, rfl,
   fun _ _ => rfl, fun _ => rfl, fun _ => rfl, fun _ => rfl, rfl⟩

/-- Claim C3 (counterexample): on a malformed `.ipynb` the asset store is
*not* left untouched — the original file is copied over the existing static
asset before the parse is attempted, so the asset entry changes even though
processing fails. -/
theorem notebook_parse_failure_asset_overwritten :
    lookupStore (("nb.ipynb").data)
        ((processFile (("/inbox/nb.ipynb").data) (("/docs").data) stNotebook).2.statics) ≠
      lookupStore (("nb.ipynb").data) stNotebook.statics := by
  intro h
  rw [show (processFile (("/inbox/nb.ipynb").data) (("/docs").data) stNotebook).2.statics =
        [((("nb.ipynb").data), (("\x7b").data))] from rfl,
      show stNotebook.statics = [((("nb.ipynb").data), (("old").data))] from rfl] at h
  simp [lookupStore] at h

/-- Claim C3 (amended): a `.ipynb` input whose content is not well-formed
JSON makes `processFile` fail with the `Invalid notebook JSON` parse error
and write nothing to the output store (prior output contents unchanged), but
the original file is copied into the static asset store — overwriting any
existing asset of that filename — before the parse is attempted. -/
theorem notebook_parse_failure (p d content : Str) (st : SysState)
    (hext : jsToLower (extname p) = ((".ipynb").data))
    (hread : lookupStore p st.inputs = some content)
    (hbad : parseJson content = none) :
    processFile p d st =
      (.error (("Invalid notebook JSON").data),
       { st with statics := setStore (basenameRaw p) content st.statics }) := by
  simp only [processFile]
  rw [hext]
  rw [show lookupHandler ((".ipynb").data) handlers = some notebookMdx from rfl]
  rw [hread]
  simp only [notebookMdx, hbad]

/-- Witness for C3: the malformed notebook of `stNotebook` fails with the
parse error, leaving the outputs empty and the asset overwritten. -/
theorem notebook_parse_failure_witness :
    processFile (("/inbox/nb.ipynb").data) (("/docs").data) stNotebook =
      (.error (("Invalid notebook JSON").data),
       { stNotebook with
          statics := setStore (basenameRaw (("/inbox/nb.ipynb").data)) (("\x7b").data)
            stNotebook.statics }) :=
  notebook_parse_failure (("/inbox/nb.ipynb").data) (("/docs").data) (("\x7b").data)
    stNotebook rfl rfl rfl

theorem setStore_idem (k v : Str) (l : Store) :
    setStore k v (setStore k v l) = setStore k v l := by
  induction l with
  | nil => simp [setStore]
  | cons kv rest ih =>
    by_cases h : kv.1 = k
    · simp [setStore, h]
    · simp [setStore, h, ih]

theorem processFile_inputs (p d : Str) (st : SysState) :
    (processFile p d st).2.inputs = st.inputs := by
  simp only [processFile]
  split
  · rfl
  · split
    · rfl
    · split <;> rfl

/-- Claim C4: processing is idempotent — the pipeline never modifies the
input store, and re-running `processFile` on the unchanged input from the
state the first run produced returns the same result (same output path or
error) and the very same state: the second run overwrites the asset copy and
the rendered output with identical bytes. -/
theorem processFile_idempotent (p d : Str) (st : SysState) :
    (processFile p d st).2.inputs = st.inputs ∧
    processFile p d (processFile p d st).2 = processFile p d st := by
  refine ⟨processFile_inputs p d st, ?_⟩
  cases hl : lookupHandler (jsToLower (extname p)) handlers with
  | none => simp only [processFile, hl]
  | some render =>
    cases hc : lookupStore p st.inputs with
    | none => simp only [processFile, hl, hc]
    | some content =>
      cases hr : render p content with
      | error e =>
        simp only [processFile, hl, hc, hr]
        simp [hc, hr, setStore_idem]
      | ok mdx =>
        simp only [processFile, hl, hc, hr]
        simp [hc, hr, setStore_idem]

theorem foldl_batchStep_shift (o : Str) (ps : List Str) :
    ∀ (n : Nat) (st : SysState),
      ps.foldl (batchStep o) (n, st) =
        (n + (ps.foldl (batchStep o) (0, st)).1, (ps.foldl (batchStep o) (0, st)).2) := by
  induction ps with
  | nil => intro n st; simp
  | cons p rest ih =>
    intro n st
    simp only [List.foldl]
    rcases hp : processFile p o st with ⟨r, st'⟩
    cases r with
    | ok v =>
      have e1 : batchStep o (n, st) p = (n + 1, st') := by simp [batchStep, hp]
      have e2 : batchStep o (0, st) p = (0 + 1, st') := by simp [batchStep, hp]
      rw [e1, e2, ih (n + 1) st', ih (0 + 1) st']
      congr 1
      omega
    | error e =>
      have e1 : batchStep o (n, st) p = (n, st') := by simp [batchStep, hp]
      have e2 : batchStep o (0, st) p = (0, st') := by simp [batchStep, hp]
      rw [e1, e2, ih n st']

theorem processFile_fst_congr (p o : Str) (st st' : SysState) (h : st'.inputs = st.inputs) :
    (processFile p o st').1 = (processFile p o st).1 := by
  cases hl : lookupHandler (jsToLower (extname p)) handlers with
  | none => simp only [processFile, hl]
  | some render =>
    cases hc : lookupStore p st.inputs with
    | none => simp only [processFile, hl, h, hc]
    | some content =>
      cases hr : render p content with
      | error e => simp only [processFile, hl, h, hc, hr]
      | ok mdx => simp only [processFile, hl, h, hc, hr]

theorem foldl_count (o : Str) (ps : List Str) (stRef : SysState) :
    ∀ (st' : SysState), st'.inputs = stRef.inputs →
      (ps.foldl (batchStep o) (0, st')).1 =
        (ps.filter (fun p => isOkE (processFile p o stRef).1)).length := by
  induction ps with
  | nil => intro st' h; simp
  | cons p rest ih =>
    intro st' h
    simp only [List.foldl]
    have hfst : (processFile p o st').1 = (processFile p o stRef).1 :=
      processFile_fst_congr p o stRef st' h
    rcases hp : processFile p o st' with ⟨r, st''⟩
    have hin : st''.inputs = stRef.inputs := by
      have h2 := processFile_inputs p o st'
      rw [hp] at h2
      exact h2.trans h
    cases r with
    | ok v =>
      have e1 : batchStep o (0, st') p = (1, st'') := by simp [batchStep, hp]
      have hok : isOkE (processFile p o stRef).1 = true := by
        rw [← hfst, hp]
        rfl
      rw [e1, foldl_batchStep_shift, ih st'' hin]
      simp [List.filter_cons, hok]
      omega
    | error e =>
      have e1 : batchStep o (0, st') p = (0, st'') := by simp [batchStep, hp]
      have hko : isOkE (processFile p o stRef).1 = false := by
        rw [← hfst, hp]
        rfl
      rw [e1, ih st'' hin]
      simp [List.filter_cons, hko]

theorem processDir_eq_foldl (o : Str) : ∀ (d : Str) (es : List FsEntry) (st : SysState),
    processDir o d es st = (supportedFilePaths d es).foldl (batchStep o) (0, st) := by
  intro d es st
  induction d, es, st using processDir.induct o with
  | case1 d st => simp [processDir, supportedFilePaths]
  | case2 d name sub rest st r1 ihsub ihrest =>
    have hr1 : r1 = processDir o (pathJoin d name) sub st := rfl
    rw [hr1] at ihrest
    rcases hP : processDir o (pathJoin d name) sub st with ⟨n1, s1⟩
    rw [hP] at ihsub ihrest
    rw [processDir, supportedFilePaths, List.foldl_append, ← ihsub, hP]
    simp only []
    rw [ihrest]
    conv_rhs => rw [foldl_batchStep_shift]
  | case3 d name rest st h a st' hp ih =>
    rw [processDir, supportedFilePaths, if_pos h, if_pos h, List.foldl_cons]
    have e1 : batchStep o (0, st) (pathJoin d name) = (1, st') := by simp [batchStep, hp]
    rw [hp, e1, foldl_batchStep_shift, ← ih]
    simp only []
    congr 1
    omega
  | case4 d name rest st h a st' hp ih =>
    rw [processDir, supportedFilePaths, if_pos h, if_pos h, List.foldl_cons]
    have e1 : batchStep o (0, st) (pathJoin d name) = (0, st') := by simp [batchStep, hp]
    rw [hp, e1, ← ih]
  | case5 d name rest st h ih =>
    rw [processDir, supportedFilePaths, if_neg h, if_neg h]
    exact ih

/-- Claim C9: batch traversal attempts every supported file of the tree in
traversal order, independently of earlier failures — the whole run equals a
fold of the per-file attempt over exactly the supported file paths — and the
reported count is the number of files whose own processing succeeds (failed
files are excluded, successes are judged against the unchanging input
store). -/
theorem batch_isolation_and_count (o d : Str) (es : List FsEntry) (st : SysState) :
    processDir o d es st = (supportedFilePaths d es).foldl (batchStep o) (0, st) ∧
    (processDir o d es st).1 =
      ((supportedFilePaths d es).filter (fun p => isOkE (processFile p o st).1)).length := by
  refine ⟨processDir_eq_foldl o d es st, ?_⟩
  rw [processDir_eq_foldl o d es st]
  exact foldl_count o _ st st rfl

/-- Claim C10: the frontmatter object carries, in insertion order, the keys
`title`, `sidebar_label`, `sidebarLabel` and `tags` — the options spread
appends a duplicate camel-case `sidebarLabel` key rendering the same value as
`sidebar_label` whenever the label is non-empty — and every handler builds
its rendered document as this frontmatter followed by the rest of its
template. -/
theorem frontmatter_duplicate_sidebar_label :
    (∀ (title : Str) (o : FmOptions), o.sidebarLabel ≠ [] →
      ((fmEntries title o).map Prod.fst =
        [("title").data, ("sidebar_label").data, ("sidebarLabel").data, ("tags").data] ∧
       generateFrontmatter title o =
        ("---\ntitle: \"").data ++ title ++ ("\"\nsidebar_label: \"").data ++ o.sidebarLabel ++
        ("\"\nsidebarLabel: \"").data ++ o.sidebarLabel ++ ("\"\ntags: [").data ++
        List.intercalate ((", ").data) (o.tags.map (fun t => ("\"").data ++ t ++ ("\"").data)) ++
        ("]\n---").data)) ∧
    (∀ p content, ∃ rest, pythonMdx p content =
      .ok (generateFrontmatter
        (replaceFirst ((".py").data) [] (basenameRaw p) ++ (" - Python Module").data)
        { sidebarLabel := basenameRaw p, tags := [("python").data, ("module").data] } ++ rest)) ∧
    (∀ p content, ∃ rest, latexMdx p content =
      .ok (generateFrontmatter (latexDocTitle p content ++ (" - LaTeX Document").data)
        { sidebarLabel := basenameRaw p, tags := [("latex").data, ("document").data] } ++ rest)) ∧
    (∀ p content, ∃ rest, pdfMdx p content =
      .ok (generateFrontmatter
        (replaceFirst ((".pdf").data) [] (basenameRaw p) ++ (" - PDF").data)
        { sidebarLabel := replaceFirst ((".pdf").data) [] (basenameRaw p) ++ (" (PDF)").data,
          tags := [("pdf").data, ("document").data] } ++ rest)) ∧
    (∀ p content, ∃ rest, matlabMdx p content =
      .ok (generateFrontmatter
        (replaceFirst ((".m").data) [] (basenameRaw p) ++ (" - MATLAB").data)
        { sidebarLabel := basenameRaw p, tags := [("matlab").data, ("code").data] } ++ rest)) ∧
    (∀ p content, ∃ rest, htmlMdx p content =
      .ok (generateFrontmatter (htmlTitle p content ++ (" - HTML").data)
        { sidebarLabel := basenameRaw p, tags := [("html").data, ("web").data] } ++ rest)) ∧
    (∀ p content, ∃ rest, textMdx p content =
      .ok (generateFrontmatter
        (replaceFirst ((".txt").data) [] (basenameRaw p) ++ (" - Text File").data)
        { sidebarLabel := basenameRaw p, tags := [("text").data] } ++ rest)) ∧
    (∀ p content, ∃ rest, markdownMdx p content =
      .ok (generateFrontmatter (mdTitle p content)
        { sidebarLabel := basenameRaw p,
          tags := [("markdown").data, ("documentation").data] } ++ rest)) ∧
    (∀ p content, ∃ rest, rstMdx p content =
      .ok (generateFrontmatter (rstTitle p content ++ (" - RST Document").data)
        { sidebarLabel := basenameRaw p, tags := [("rst").data, ("documentation").data] } ++ rest)) ∧
    (∀ p content out, notebookMdx p content = .ok out →
      ∃ rest, out = generateFrontmatter
        (replaceFirst ((".ipynb").data) [] (basenameRaw p) ++ (" - Jupyter Notebook").data)
        { sidebarLabel := basenameRaw p,
          tags := [("jupyter").data, ("notebook").data, ("python").data] } ++ rest) := by
  refine ⟨?_, ?_, ?_, ?_, ?_, ?_, ?_, ?_, ?_, ?_⟩
  · intro title o h
    refine ⟨rfl, ?_⟩
    rw [generateFrontmatter, fmEntries, if_neg h]
    simp [renderFmLine, List.intercalate]
  · intro p content
    apply Exists.intro
    rw [pythonMdx]
    simp only [List.append_assoc]
    rfl
  · intro p content
    apply Exists.intro
    rw [latexMdx]
    simp only [List.append_assoc]
    rfl
  · intro p content
    apply Exists.intro
    rw [pdfMdx]
    simp only [List.append_assoc]
    rfl
  · intro p content
    apply Exists.intro
    rw [matlabMdx]
    simp only [List.append_assoc]
    rfl
  · intro p content
    apply Exists.intro
    rw [htmlMdx]
    simp only [List.append_assoc]
    rfl
  · intro p content
    apply Exists.intro
    rw [textMdx]
    simp only [List.append_assoc]
    rfl
  · intro p content
    apply Exists.intro
    rw [markdownMdx]
    simp only [List.append_assoc]
    rfl
  · intro p content
    apply Exists.intro
    rw [rstMdx]
    simp only [List.append_assoc]
    rfl
  · intro p content out h
    rw [notebookMdx] at h
    cases hj : parseJson content with
    | none =>
      rw [hj] at h
      exact Except.noConfusion h
    | some nb =>
      rw [hj] at h
      dsimp only [] at h
      cases hc : jsonCells nb with
      | error e =>
        rw [hc] at h
        exact Except.noConfusion h
      | ok cellsOpt =>
        rw [hc] at h
        dsimp only [] at h
        cases cellsOpt with
        | none =>
          dsimp only [countCellsOfType, notebookCellsContent] at h
          injection h with h2
          subst h2
          apply Exists.intro
          simp only [List.append_assoc]
          rfl
        | some xs =>
          dsimp only [] at h
          cases hcc : countCellsOfType ['c', 'o', 'd', 'e'] xs with
          | error e =>
            rw [hcc] at h
            exact Except.noConfusion h
          | ok codeCells =>
            rw [hcc] at h
            dsimp only [] at h
            cases hcm : countCellsOfType ['m', 'a', 'r', 'k', 'd', 'o', 'w', 'n'] xs with
            | error e =>
              rw [hcm] at h
              exact Except.noConfusion h
            | ok markdownCells =>
              rw [hcm] at h
              dsimp only [] at h
              cases hnc : notebookCellsContent xs with
              | error e =>
                rw [hnc] at h
                exact Except.noConfusion h
              | ok cellsContent =>
                rw [hnc] at h
                dsimp only [] at h
                injection h with h2
                subst h2
                apply Exists.intro
                simp only [List.append_assoc]
                rfl

/-- Witness for C10: the frontmatter of a concrete title and options renders
with the four keys in order and the duplicated label value. -/
theorem frontmatter_duplicate_sidebar_label_witness :
    (fmEntries (("T").data) { sidebarLabel := ("f.py").data, tags := [("x").data] }).map
        Prod.fst =
      [("title").data, ("sidebar_label").data, ("sidebarLabel").data, ("tags").data] ∧
    generateFrontmatter (("T").data) { sidebarLabel := ("f.py").data, tags := [("x").data] } =
      ("---\ntitle: \"").data ++ ("T").data ++ ("\"\nsidebar_label: \"").data ++ ("f.py").data ++
      ("\"\nsidebarLabel: \"").data ++ ("f.py").data ++ ("\"\ntags: [").data ++
      List.intercalate ((", ").data)
        ([("x").data].map (fun t => ("\"").data ++ t ++ ("\"").data)) ++
      ("]\n---").data :=
  frontmatter_duplicate_sidebar_label.1 (("T").data)
    { sidebarLabel := ("f.py").data, tags := [("x").data] } (by decide)

end Inbox
